import Mathlib

/-!
Shallow embedding of the ANSI formatting engine of `ansi-js-logger`
(`src/index.js`).  JavaScript strings are modelled as Lean `String`
(internally `List Char`); all string operations used by the source are
re-implemented here with structural or fuel-based recursion so that every
definition is executable and kernel-reducible.  JavaScript functions that can
throw a `TypeError` (property access on `null`/`undefined`) are modelled in
`Option`, where `none` means "the call raises".

Modelling restrictions (inputs outside these shapes do not occur in the
claims): strings are ASCII; `Number(s)` / `parseInt` are modelled for
optionally signed decimal integer syntax (no exponents, no hex literals, no
fractional values); the dynamic color values accepted by `prepareObject`
(arrays and `{data/text/content}` objects) are modelled in their string form
only, and single-or-array fields (`style`, `currents`, `notes`, `index`) are
modelled directly as lists, which is how the source normalises them.
-/

/-- JS truthiness-free emptiness test on the character data of a string. -/
def strEmpty (s : String) : Bool := s.data.isEmpty

/-- Substring containment on char lists, JS `String.prototype.includes`. -/
def containsL : List Char → List Char → Bool
  | [], pat => pat.isEmpty
  | c :: rest, pat => pat.isPrefixOf (c :: rest) || containsL rest pat

/-- JS `s.includes(pat)`. -/
def jsContains (s pat : String) : Bool := containsL s.data pat.data

/-- JS `s.startsWith(pat)`. -/
def jsStartsWith (s pat : String) : Bool := pat.data.isPrefixOf s.data

/-- JS `s.endsWith(pat)`. -/
def jsEndsWith (s pat : String) : Bool := pat.data.isSuffixOf s.data

/-- JS `s.toLowerCase()` (basic latin, which is all the source needs). -/
def jsToLower (s : String) : String := ⟨s.data.map Char.toLower⟩

/-- Fuel-based splitting worker; fuel is the length of the subject string,
which is always sufficient because each step consumes at least one char. -/
def splitGo (sep : List Char) : Nat → List Char → List Char → List (List Char)
  | _, [], acc => [acc.reverse]
  | 0, s, acc => [acc.reverse ++ s]
  | fuel + 1, c :: rest, acc =>
    if sep ≠ [] ∧ sep.isPrefixOf (c :: rest) then
      acc.reverse :: splitGo sep fuel ((c :: rest).drop sep.length) []
    else
      splitGo sep fuel rest (c :: acc)

/-- JS `s.split(sep)` for a non-empty string separator. -/
def jsSplit (s sep : String) : List String :=
  (splitGo sep.data s.data.length s.data []).map (fun l => ⟨l⟩)

/-- Fuel-based replace-all worker (non-empty pattern). -/
def replaceAllGo (pat rep : List Char) : Nat → List Char → List Char
  | _, [] => []
  | 0, s => s
  | fuel + 1, c :: rest =>
    if pat ≠ [] ∧ pat.isPrefixOf (c :: rest) then
      rep ++ replaceAllGo pat rep fuel ((c :: rest).drop pat.length)
    else
      c :: replaceAllGo pat rep fuel rest

/-- JS `s.replaceAll(pat, rep)` for a non-empty string pattern (the source
only calls it with a non-empty `target`). -/
def jsReplaceAll (s pat rep : String) : String :=
  ⟨replaceAllGo pat.data rep.data s.data.length s.data⟩

/-- Replace the first occurrence only, JS `s.replace(pat, rep)` with a string
pattern. -/
def replaceFirstL (pat rep : List Char) : List Char → List Char
  | [] => if pat.isEmpty then rep else []
  | c :: rest =>
    if pat.isPrefixOf (c :: rest) then rep ++ (c :: rest).drop pat.length
    else c :: replaceFirstL pat rep rest

/-- JS `s.replace(pat, rep)` (first occurrence). -/
def jsReplaceFirst (s pat rep : String) : String :=
  ⟨replaceFirstL pat.data rep.data s.data⟩

/-- JS `list.join(sep)` on a list of strings. -/
def joinSep (sep : String) : List String → String
  | [] => ""
  | h :: t => t.foldl (fun acc x => acc ++ sep ++ x) h

/-- JS `list.join("")`. -/
def jsJoin (l : List String) : String := l.foldl (fun acc x => acc ++ x) ""

/-- Decimal value of a list of digit characters. -/
def decValue (l : List Char) : Nat :=
  l.foldl (fun acc c => acc * 10 + (c.toNat - 48)) 0

/-- JS `parseInt(s, 10)` on the strings the source feeds it (digit-prefixed
or non-numeric): parse the maximal leading run of decimal digits, `none` for
NaN. -/
def parseIntPrefixDec (s : String) : Option Nat :=
  let d := s.data.takeWhile Char.isDigit
  if d.isEmpty then none else some (decValue d)

/-- Hex digit test. -/
def isHexDigitChar (c : Char) : Bool :=
  c.isDigit || (97 ≤ c.toNat && c.toNat ≤ 102) || (65 ≤ c.toNat && c.toNat ≤ 70)

/-- Hex digit value. -/
def hexDigitValue (c : Char) : Nat :=
  if c.isDigit then c.toNat - 48
  else if 97 ≤ c.toNat then c.toNat - 87
  else c.toNat - 55

/-- JS `parseInt(s, 16)`: maximal leading run of hex digits, `none` for NaN. -/
def parseIntPrefixHex (s : String) : Option Nat :=
  let d := s.data.takeWhile isHexDigitChar
  if d.isEmpty then none
  else some (d.foldl (fun acc c => acc * 16 + hexDigitValue c) 0)

/-- Maximal runs of decimal digits, left to right: the shallow embedding of
`inputStr.match(/\d*/gi).filter((i) => i.length)`. -/
def digitRunsAux : List Char → List Char → List (List Char)
  | [], acc => if acc.isEmpty then [] else [acc.reverse]
  | c :: rest, acc =>
    if c.isDigit then digitRunsAux rest (c :: acc)
    else if acc.isEmpty then digitRunsAux rest []
    else acc.reverse :: digitRunsAux rest []

/-- Maximal digit runs of a string's characters. -/
def digitRuns (l : List Char) : List (List Char) := digitRunsAux l []

/-- JS `Number(s)` restricted to optionally signed decimal integers (and the
whitespace-only strings, which convert to 0); `none` is NaN. -/
def jsStrToNum (s : String) : Option Int :=
  let t := (s.data.dropWhile Char.isWhitespace).reverse.dropWhile Char.isWhitespace |>.reverse
  match t with
  | [] => some 0
  | '-' :: rest =>
    if rest ≠ [] ∧ rest.all Char.isDigit then some (-(decValue rest : Int)) else none
  | '+' :: rest =>
    if rest ≠ [] ∧ rest.all Char.isDigit then some ((decValue rest : Int)) else none
  | l => if l.all Char.isDigit then some ((decValue l : Int)) else none

/-- JS `!isNaN(+s)` on the modelled numeric syntax. -/
def jsIsNumeric (s : String) : Bool := (jsStrToNum s).isSome

/-- The character of a decimal digit value. -/
def digitChar : Nat → Char
  | 0 => '0'
  | 1 => '1'
  | 2 => '2'
  | 3 => '3'
  | 4 => '4'
  | 5 => '5'
  | 6 => '6'
  | 7 => '7'
  | 8 => '8'
  | _ => '9'

/-- Decimal representation of a natural number (JS number-to-string for the
integers the source prints); fuel-based worker. -/
def natReprGo : Nat → Nat → List Char
  | 0, _ => []
  | fuel + 1, n =>
    if n < 10 then [digitChar n]
    else natReprGo fuel (n / 10) ++ [digitChar (n % 10)]

/-- Decimal representation of a natural number. -/
def natRepr (n : Nat) : String := ⟨natReprGo (n + 1) n⟩

/-- JS string conversion of an integer. -/
def intRepr (n : Int) : String :=
  if n < 0 then "-" ++ natRepr n.natAbs else natRepr n.toNat

-- =========================================================================
-- Base ANSI constants (source: `prefix`, `postfix`, `reset`)
-- =========================================================================

/-- Source constant `prefix`. -/
def escPre : String := "\x1b["

/-- Source constant `postfix`. -/
def escPost : String := "m"

/-- The escape-sequence template the source uses everywhere,
a parameter body between the fixed pre/post strings. -/
def escSeq (body : String) : String := escPre ++ body ++ escPost

/-- Source constant `reset`. -/
def ansiReset : String := escSeq "0"

/-- Source table `STYLES`: name, on code, off code (in declaration order). -/
def STYLES : List (String × Nat × Nat) :=
  [("bold", 1, 22), ("dim", 2, 22), ("italic", 3, 23), ("cursive", 3, 23),
   ("underline", 4, 24), ("blink", 5, 25), ("inverse", 7, 27),
   ("hidden", 8, 28), ("strikethrough", 9, 29)]

/-- Source table `COLORS` (in declaration = iteration order). -/
def COLORS : List (String × Nat) :=
  [("black", 30), ("red", 31), ("green", 32), ("yellow", 33), ("blue", 34),
   ("magenta", 35), ("cyan", 36), ("white", 37), ("reset", 0)]

-- =========================================================================
-- Color resolution (source: `parseRGB`, `hexToRgb`, `getColor`,
-- `getColorFromText`)
-- =========================================================================

/-- `parseRGB` on an array argument (`input.slice(0, 3).map(...)`); element
`none` models a `NaN` entry. -/
def parseRGBArr (l : List (Option Nat)) : List Nat :=
  (l.take 3).map (fun v => match v with | some n => n % 256 | none => 0)

/-- `parseRGB` on a string argument: digit-run extraction, keep at most the
first three runs, reduce each modulo 256.  `none` is the JS `null` returned
for a falsy (empty) input. -/
def parseRGBStr (s : String) : Option (List (Option Nat)) :=
  if strEmpty s then none
  else some (((digitRuns s.data).take 3).map (fun run => some (decValue run % 256)))

/-- Source `hexToRgb`: strip one leading `#`, then accept 3-, 6- or
8-hex-digit bodies; `none` is the JS `null` for any other length.  A `none`
component models a `NaN` channel from invalid hex digits. -/
def hexToRgb (hex : String) : Option (List (Option Nat)) :=
  let h : List Char := if hex.data.head? = some '#' then hex.data.drop 1 else hex.data
  if h.length = 3 then
    some [parseIntPrefixHex ⟨[h.getD 0 ' ', h.getD 0 ' ']⟩,
          parseIntPrefixHex ⟨[h.getD 1 ' ', h.getD 1 ' ']⟩,
          parseIntPrefixHex ⟨[h.getD 2 ' ', h.getD 2 ' ']⟩]
  else if h.length = 6 ∨ h.length = 8 then
    some [parseIntPrefixHex ⟨(h.drop 0).take 2⟩,
          parseIntPrefixHex ⟨(h.drop 2).take 2⟩,
          parseIntPrefixHex ⟨(h.drop 4).take 2⟩]
  else none

/-- The options record the source passes to `getColor` (`bg`, `contrast`,
`rgb`); absent JS fields are the defaults. -/
structure JsColorOpts where
  bg : Bool := false
  contrast : Bool := false
  rgb : Option (List (Option Nat)) := none
deriving Repr, DecidableEq

/-- Source `getColor`. -/
def getColor (text : String) (options : Option JsColorOpts) : String :=
  let bg := (options.map (fun o => o.bg)).getD false
  let contrast := (options.map (fun o => o.contrast)).getD false
  let rgb := (options.map (fun o => o.rgb)).getD none
  if rgb = none ∧ text.length < 3 then ""
  else
    let keyShifting := (if bg then 10 else 0) + (if contrast ∧ rgb = none then 60 else 0)
    match rgb with
    | some arr =>
      let colors := parseRGBArr arr
      let args : List Nat :=
        match colors with
        | [c] => [38 + keyShifting, 5, c]
        | [c1, c2] => [38 + keyShifting, 2, c1, c2, 0]
        | _ => [38 + keyShifting, 2] ++ colors.take 3
      escSeq (joinSep ";" (args.map natRepr))
    | none =>
      let lower := jsToLower text
      let key := (COLORS.find? (fun p => p.1 = lower)).orElse
        (fun _ => COLORS.find? (fun p => jsContains lower p.1))
      match key with
      | none => ""
      | some p => escSeq (natRepr (p.2 + keyShifting))

/-- Source `getColorFromText`.  `none` models the `TypeError` the source
raises when `hexToRgb`/`parseRGB` return `null` and the code reads
`rgbArray.length`. -/
def getColorFromText (code : String) : Option (String × JsColorOpts) :=
  let hex := jsStartsWith code "#"
  let lower := jsToLower code
  let rgbFlag := jsContains lower "rgb" || jsContains lower "." ||
    jsContains lower "," || jsContains lower "-" || jsContains lower "/" ||
    jsContains lower "\\" || jsIsNumeric code
  let textCode := if hex || rgbFlag then "" else code
  let rgbArray : Option (List (Option Nat)) :=
    if hex then hexToRgb code
    else if rgbFlag then parseRGBStr code
    else some []
  match rgbArray with
  | none => none
  | some arr =>
    some (textCode, { rgb := if arr.isEmpty then none else some arr })

/-- The color-sequence resolution used by `colorizeByText` (the spec name
`resolveColor`): classify the token, then build the SGR sequence; `none`
models a raised `TypeError`. -/
def resolveColor (code : String) : Option String :=
  match getColorFromText code with
  | none => none
  | some (textCode, o) =>
    some (getColor textCode (if o.rgb.isSome then some o else none))

/-- Source `colorizeByText` (simple one-color wrapping). -/
def colorizeByText (text code : String) : Option String :=
  if strEmpty code then some text
  else
    match resolveColor code with
    | none => none
    | some colorCode => some (colorCode ++ text ++ ansiReset)

-- =========================================================================
-- Index application (source: `INDEX`, `halving`)
-- =========================================================================

/-- The dynamic values that reach `halving`'s `styles` array and
`prepareObject`'s `args`: SGR parameter strings (cleaned color codes) or SGR
numbers (style codes). -/
inductive SCode where
  | str (s : String)
  | num (n : Nat)
deriving Repr, DecidableEq

/-- JS string conversion of an `args` element, as `Array.prototype.join`
performs it. -/
def scodeStr : SCode → String
  | .str s => s
  | .num n => natRepr n

/-- JS truthiness of an `args` element (`style && style !== ""`). -/
def scodeTruthy : SCode → Bool
  | .str s => !strEmpty s
  | .num n => n ≠ 0

/-- The dynamic `reg` argument of `halving`: a string, a number, or the JS
`undefined`/`null`. -/
inductive Reg where
  | str (s : String)
  | num (n : Int)
  | undef
deriving Repr, DecidableEq

/-- JS falsiness of `reg` (`!reg`). -/
def regFalsy : Reg → Bool
  | .str s => strEmpty s
  | .num n => n = 0
  | .undef => true

/-- JS template conversion of `reg` (the interpolation in the source). -/
def regToStr : Reg → String
  | .str s => s
  | .num n => intRepr n
  | .undef => "undefined"

/-- JS numeric coercion of `reg` (`+reg` and the `<`/`>` comparisons);
`none` is NaN. -/
def regToNum : Reg → Option Int
  | .str s => jsStrToNum s
  | .num n => some n
  | .undef => none

/-- The alias strings the source routes to `INDEX.down` (code 73). -/
def downAliases : List String :=
  ["down", "superscript", "super", "sup", "under", "bottom", "lower"]

/-- The alias strings the source routes to `INDEX.up` (code 74). -/
def upAliases : List String :=
  ["up", "subscript", "sub", "over", "top", "upper"]

/-- Source `halving`: wrap `text` in index on/off sequences, merging the
passed-through auxiliary style codes. -/
def halving (text : String) (reg : Reg) (styles : List SCode) : String :=
  if regFalsy reg then text
  else
    let rl := jsToLower (regToStr reg)
    let isDown := downAliases.contains rl ||
      (match regToNum reg with | some n => decide (n < 0) | none => false)
    let isUp := upAliases.contains rl ||
      (match regToNum reg with | some n => decide (0 < n) | none => false)
    let key : Option Nat := if isDown then some 73 else if isUp then some 74 else none
    match key with
    | none => text
    | some k =>
      let styleCodes := (styles.filter scodeTruthy).filterMap
        (fun st => match st with | .str s => parseIntPrefixDec s | .num n => some n)
      escSeq (joinSep ";" ((k :: styleCodes).map natRepr)) ++ text ++
        escSeq (joinSep ";" ((75 :: styleCodes).map natRepr))

-- =========================================================================
-- Inline DSL parser (source: `parseString`)
-- =========================================================================

/-- The `separators` option object (`command`/`param`); a JS `null`,
`undefined` or `""` field is `none`-like and falls back to the default. -/
structure Separators where
  command : Option String := none
  param : Option String := none
deriving Repr, DecidableEq

/-- The active command separator (default the pipe). -/
def cSepOf (separators : Option Separators) : String :=
  match separators with
  | some s => match s.command with
    | some c => if strEmpty c then "|" else c
    | none => "|"
  | none => "|"

/-- The active parameter separator (default the dot). -/
def pSepOf (separators : Option Separators) : String :=
  match separators with
  | some s => match s.param with
    | some p => if strEmpty p then "." else p
    | none => "."
  | none => "."

/-- The accumulator of `parseString`: the output buffer and the remembered
last color parameter string (`null` initially, possibly `""` after a failed
color lookup). -/
structure PSState where
  str : String := ""
  lastColor : Option String := none
deriving Repr, DecidableEq

/-- `[x, lastColor].filter((i) => i !== null)` tail, as join-ready strings. -/
def lastColorList (st : PSState) : List String :=
  match st.lastColor with
  | some c => [c]
  | none => []

/-- Strip the trailing `m` of an escape sequence (`/m$/`). -/
def stripTrailM (s : String) : String :=
  if s.data.getLast? = some 'm' then ⟨s.data.dropLast⟩ else s

/-- Global removal of `bg_` and `+` from an already lowercased color
argument (the `/(bg_|\+)/gi` replace). -/
def stripBgPlus : List Char → List Char
  | [] => []
  | 'b' :: 'g' :: '_' :: rest => stripBgPlus rest
  | '+' :: rest => stripBgPlus rest
  | c :: rest => c :: stripBgPlus rest

/-- The command-kind character of a segment: first char of the first
parameter field, separator-stripped and lowercased. -/
def keyOfSeg (cSep pSep : String) (seg : String) : Option Char :=
  (jsToLower (jsReplaceFirst ((jsSplit seg pSep).headD "") cSep "")).data.head?

/-- One `forEach` iteration of `parseString` (`none` models the `TypeError`
raised by the color branch when the segment has no second field). -/
def stepSeg (cSep pSep : String) (st : PSState) (seg : String) : Option PSState :=
  let params := jsSplit seg pSep
  let key := keyOfSeg cSep pSep seg
  let currentText := jsJoin (params.drop 2)
  if key = some 'i' then
    let reg := match params.get? 1 with | some p1 => Reg.str p1 | none => Reg.undef
    let styles := (lastColorList st).map SCode.str
    some { st with str := st.str ++ halving currentText reg styles }
  else if key = some 's' then
    let style := (params.get? 1).bind (fun p1 => STYLES.find? (fun t => t.1 = p1))
    let onOff : String × String :=
      match style with
      | some t =>
        (escSeq (joinSep ";" (natRepr t.2.1 :: lastColorList st)),
         escSeq (joinSep ";" (natRepr t.2.2 :: lastColorList st)))
      | none => ("", "")
    some { st with str := st.str ++ onOff.1 ++ currentText ++ onOff.2 }
  else if key = some 'c' then
    match params.get? 1 with
    | none => none
    | some p1 =>
      let pl := jsToLower p1
      let isBackground := jsStartsWith pl "bg_"
      let isNeedContrast := jsEndsWith pl "+"
      let cleanedCode : String := ⟨stripBgPlus pl.data⟩
      match getColorFromText cleanedCode with
      | none => none
      | some (textCode, o) =>
        let color := getColor textCode
          (some { o with contrast := isNeedContrast, bg := isBackground })
        let lc := stripTrailM (jsReplaceFirst color escPre "")
        some { str := st.str ++ color ++ currentText, lastColor := some lc }
  else some st

/-- The non-empty segments of the input (`split` + `filter((i) => i.length)`). -/
def segsOf (text : String) (separators : Option Separators) : List String :=
  (jsSplit text (cSepOf separators)).filter (fun i => !strEmpty i)

/-- Source `parseString` (the spec's `formatInline`); `none` models a raised
`TypeError`. -/
def parseString (text : String) (separators : Option Separators) : Option String :=
  match (segsOf text separators).foldlM
      (stepSeg (cSepOf separators) (pSepOf separators)) {} with
  | none => none
  | some st => some (st.str ++ ansiReset)

-- =========================================================================
-- Structured formatting engine (source: `prepareObject`, `prepareCustomLog`)
-- =========================================================================

/-- The style/color/background fields read by `prepareObject` (string color
values; a single style string is already normalised to a one-element list as
the source itself does with `Array.isArray`). -/
structure StyleData where
  color : Option String := none
  background : Option String := none
  style : Option (List String) := none
deriving Repr, DecidableEq

/-- One `currents` entry. -/
structure CurrentEntry where
  target : Option String := none
  color : Option String := none
  background : Option String := none
  style : Option (List String) := none
deriving Repr, DecidableEq

/-- The style fields of a `currents` entry, as `prepareObject` reads them. -/
def CurrentEntry.toStyle (c : CurrentEntry) : StyleData :=
  { color := c.color, background := c.background, style := c.style }

/-- One `notes` entry (`index` already normalised to a list). -/
structure NoteEntry where
  target : Option String := none
  index : List Int := []
  reg : Reg := .undef
deriving Repr, DecidableEq

/-- The options object of `prepareCustomLog` (`currents`/`notes` already
normalised to lists, as the source does with `Array.isArray`). -/
structure LogOptions where
  all : Option StyleData := none
  currents : Option (List CurrentEntry) := none
  notes : Option (List NoteEntry) := none
  separators : Option Separators := none
deriving Repr, DecidableEq

/-- The color part of `prepareObject`'s helper `getColorCode` on a string
color value, followed by the `getColor` call and the prefix/postfix
stripping; returns the pushed `args` entries (`none` models the raised
`TypeError`). -/
def colorArgsOf (bg : Bool) (cd : String) : Option (List SCode) :=
  match getColorFromText cd with
  | none => none
  | some (textCode, o) =>
    let colorCode := getColor textCode (some { o with contrast := false, bg := bg })
    some (if strEmpty colorCode then []
          else [SCode.str (stripTrailM (jsReplaceFirst colorCode escPre ""))])

/-- Source `prepareObject`: the on-codes (`args`) and style off-codes
(`ends`).  `none` models the `TypeError` raised on an unknown style name
(`STYLES[i].on` with `STYLES[i]` undefined) or a failed color access. -/
def prepareObject (data : StyleData) : Option (List SCode × List Nat) :=
  match (match data.color with
         | none => some []
         | some cd => colorArgsOf false cd) with
  | none => none
  | some colorArgs =>
    match (match data.background with
           | none => some []
           | some cd => colorArgsOf true cd) with
    | none => none
    | some bgArgs =>
      match (match data.style with
             | none => some ([], [])
             | some styles =>
               styles.foldlM
                 (fun (acc : List SCode × List Nat) (sname : String) =>
                   match STYLES.find? (fun (t : String × Nat × Nat) => t.1 = sname) with
                   | some t => some (acc.1 ++ [SCode.num t.2.1], acc.2 ++ [t.2.2])
                   | none => none)
                 ([], [])) with
      | none => none
      | some styleArgs =>
        some (colorArgs ++ bgArgs ++ styleArgs.1, styleArgs.2)

/-- The delegation test of `prepareCustomLog`: a configured truthy command
separator contained in the text, or the default pipe contained in the text. -/
def delegationCondition (text : String) (options : Option LogOptions) : Bool :=
  (match options.bind (fun o => o.separators) with
   | some s =>
     (match s.command with
      | some c => !strEmpty c && jsContains text c
      | none => false)
   | none => false) || jsContains text "|"

/-- The global layer of `prepareCustomLog`: the emitted `global` sequence and
the `globalArgs` list. -/
def globalPart (options : Option LogOptions) : Option (String × List SCode) :=
  match options.bind (fun o => o.all) with
  | none => some ("", [])
  | some a =>
    match prepareObject a with
    | none => none
    | some (args, _) => some (escSeq (joinSep ";" (args.map scodeStr)), args)

/-- One `currents.forEach` iteration: replace every occurrence of the target
by on-sequence + target + end marker.  The on-sequence parameter list is
`[args, ...globalArgs].join(";")`: the nested `args` array stringifies by
joining its own elements with a comma, exactly as JS `Array.prototype.join`
does. -/
def currentStep (global : String) (globalArgs : List SCode)
    (acc : String × List (String × List SCode)) (current : CurrentEntry) :
    Option (String × List (String × List SCode)) :=
  match current.target with
  | none => some acc
  | some t =>
    if strEmpty t then some acc
    else
      match prepareObject current.toStyle with
      | none => none
      | some (args, ends) =>
        let endMark :=
          if current.color.isSome || current.background.isSome then
            ansiReset ++ global
          else
            escSeq (joinSep ";" (ends.map natRepr)) ++ global
        let onSeq :=
          escSeq (joinSep ";" (joinSep "," (args.map scodeStr) :: globalArgs.map scodeStr))
        some (jsReplaceAll acc.1 t (onSeq ++ t ++ endMark), acc.2 ++ [(t, args)])

/-- The `currents` layer: the rewritten text plus the recorded
changed-target/applied-args pairs. -/
def currentsPart (global : String) (globalArgs : List SCode) (text : String)
    (options : Option LogOptions) : Option (String × List (String × List SCode)) :=
  match options.bind (fun o => o.currents) with
  | none => some (text, [])
  | some cs => cs.foldlM (currentStep global globalArgs) (text, [])

/-- One `notes.forEach` iteration: wrap each listed character position of the
target with `halving`, inheriting the styles of the first recorded changed
target that contains this target. -/
def noteStep (changed : List (String × List SCode)) (tc : String)
    (note : NoteEntry) : String :=
  match note.target with
  | none => tc
  | some t =>
    if strEmpty t then tc
    else
      let styles := match changed.find? (fun p => jsContains p.1 t) with
        | some p => p.2
        | none => []
      let replaced := jsJoin (t.data.enum.map
        (fun pair =>
          if note.index.contains ((pair.1 : Int)) then
            halving ⟨[pair.2]⟩ note.reg styles
          else ⟨[pair.2]⟩))
      jsReplaceAll tc t replaced

/-- The `notes` layer. -/
def notesPart (changed : List (String × List SCode)) (textContent : String)
    (options : Option LogOptions) : String :=
  match options.bind (fun o => o.notes) with
  | none => textContent
  | some ns => ns.foldl (noteStep changed) textContent

/-- The non-delegating branch of `prepareCustomLog`: global layer, then
`currents`, then `notes`, then the final full reset. -/
def prepareCustomLogBody (text : String) (options : Option LogOptions) :
    Option String :=
  match globalPart options with
  | none => none
  | some (global, globalArgs) =>
    match currentsPart global globalArgs text options with
    | none => none
    | some (textContent, changed) =>
      some (global ++ notesPart changed textContent options ++ ansiReset)

/-- Source `prepareCustomLog` (the spec's `formatStructured`); `none` models
a raised `TypeError`. -/
def prepareCustomLog (text : String) (options : Option LogOptions) :
    Option String :=
  if delegationCondition text options then
    parseString text (options.bind (fun o => o.separators))
  else prepareCustomLogBody text options

-- =========================================================================
-- Claim theorems
-- =========================================================================

/-- Claim C1.  The claim states the core formatting operations never raise
and that malformed color input (a hex color of unsupported length such as
the 4-digit body of the example, or a color token whose cleaned form is
empty) degrades to an empty color code.  The code instead raises a
`TypeError`: `hexToRgb`/`parseRGB` return `null` there and
`getColorFromText` reads `rgbArray.length` unguarded, so classification,
inline formatting and structured formatting all throw (modelled as `none`)
on these inputs. -/
theorem c1_malformed_color_raises :
    getColorFromText "#ffff" = none ∧
    getColorFromText "" = none ∧
    parseString "|c.#ffff.x|" none = none ∧
    prepareCustomLog "x" (some { all := some { color := some "#ffff" } }) = none := by
  refine ⟨by decide, by decide, by decide, by decide⟩

/-- Claim C9.  The 3-digit hex form expands by digit doubling and the
8-digit form's alpha channel is discarded, so both equivalences of the claim
hold; but a hex body of any other length (here 4 digits) does not yield an
empty color: the code raises a `TypeError` (modelled as `none`) instead of
letting the text pass through uncolored. -/
theorem c9_hex_forms :
    resolveColor "#f00" = resolveColor "#ff0000" ∧
    resolveColor "#ff0000ff" = resolveColor "#ff0000" ∧
    resolveColor "#ff0000" = some "\x1b[38;2;255;0;0m" ∧
    resolveColor "#ffff" = none := by
  refine ⟨by decide, by decide, by decide, by decide⟩

/-- The structured options of the C4 failing input: one `currents` entry
carrying both a color and a style, so its own `args` list has two
elements. -/
def c4opts : Option LogOptions :=
  some { currents := some [{ target := some "a", color := some "red", style := some ["bold"] }] }

/-- Claim C4.  The claim states every emitted sequence is a semicolon-joined
SGR parameter list with no other separator between parameters.  The code
builds the targeted-span on-sequence as a nested-array join
(`[args, ...globalArgs].join(";")`), so an entry whose own `args` has two
codes emits them comma-joined: the output contains the malformed sequence
of `31,1` between the escape prefix and terminator instead of the
semicolon-joined `31;1`. -/
theorem c4_comma_in_on_sequence :
    prepareCustomLog "abc" c4opts = some "\x1b[31,1ma\x1b[0mbc\x1b[0m" ∧
    prepareCustomLog "abc" c4opts ≠ some "\x1b[31;1ma\x1b[0mbc\x1b[0m" := by
  refine ⟨by decide, by decide⟩

/-- Claim C5.  For the inline `s` command an unknown style name indeed
contributes no on/off codes and the payload is preserved without raising;
but the structured path (`prepareObject`, used by `options.all` and
`options.currents`) reads `STYLES[name].on` unguarded and raises a
`TypeError` (modelled as `none`) on an unknown style name. -/
theorem c5_unknown_style :
    parseString "|s.wat.X|" none = some ("X" ++ ansiReset) ∧
    prepareObject { style := some ["wat"] } = none ∧
    prepareCustomLog "x" (some { all := some { style := some ["wat"] } }) = none := by
  refine ⟨by decide, by decide, by decide⟩

/-- The delegation condition exactly as the original C3 claim words it: the
active separator is the configured one when present, otherwise the default
pipe, and delegation happens exactly when the text contains the active
separator. -/
def claimedDelegationCondition (text : String) (options : Option LogOptions) : Bool :=
  match (options.bind (fun o => o.separators)).bind (fun s => s.command) with
  | some c => jsContains text c
  | none => jsContains text "|"

/-- The options of the C3 counterexample: a configured command separator
together with a global color. -/
def c3opts : Option LogOptions :=
  some { all := some { color := some "green" },
         separators := some { command := some "-" } }

/-- Claim C3 counterexample.  With separator configured to a dash, the text
of the example does not contain the active separator, so by the claim no
delegation should occur and the structured layers should apply; but the code
also delegates whenever the text contains the default pipe, so the whole
call goes to `parseString` and the global color of the options is ignored. -/
theorem c3_counterexample :
    claimedDelegationCondition "a|b" c3opts = false ∧
    prepareCustomLog "a|b" c3opts = parseString "a|b" (some { command := some "-" }) ∧
    prepareCustomLog "a|b" c3opts ≠ prepareCustomLogBody "a|b" c3opts := by
  refine ⟨by decide, by decide, by decide⟩

/-- Claim C3, amended.  Delegation to the inline parser happens exactly when
the text contains the configured (truthy) command separator or when it
contains the default pipe, the latter even if a different separator is
configured; in the delegating case the output is exactly
`parseString(text, options.separators)`, otherwise the structured layers
apply. -/
theorem c3_amended :
    ∀ (text : String) (opts : Option LogOptions),
      (delegationCondition text opts = true →
        prepareCustomLog text opts = parseString text (opts.bind (fun o => o.separators))) ∧
      (delegationCondition text opts = false →
        prepareCustomLog text opts = prepareCustomLogBody text opts) := by
  intro text opts
  constructor <;> intro h <;> simp [prepareCustomLog, h]

/-- Witness for the amended C3: the counterexample input delegates, and a
pipe-free text with the same options does not. -/
theorem c3_witness :
    prepareCustomLog "a|b" c3opts = parseString "a|b" (c3opts.bind (fun o => o.separators)) ∧
    prepareCustomLog "ab" c3opts = prepareCustomLogBody "ab" c3opts :=
  ⟨(c3_amended "a|b" c3opts).1 (by decide), (c3_amended "ab" c3opts).2 (by decide)⟩

/-- Claim C2.  Whenever the inline parser or the structured engine returns
(does not raise), the returned string literally ends with the full reset
sequence, appended once at the end of the whole call. -/
theorem c2_output_ends_with_reset :
    (∀ (text : String) (seps : Option Separators) (s : String),
      parseString text seps = some s → ∃ u, s = u ++ ansiReset) ∧
    (∀ (text : String) (opts : Option LogOptions) (s : String),
      prepareCustomLog text opts = some s → ∃ u, s = u ++ ansiReset) := by
  have h1 : ∀ (text : String) (seps : Option Separators) (s : String),
      parseString text seps = some s → ∃ u, s = u ++ ansiReset := by
    intro text seps s h
    unfold parseString at h
    split at h
    · exact Option.noConfusion h
    · next st _ =>
      injection h with h2
      exact ⟨st.str, h2.symm⟩
  refine ⟨h1, ?_⟩
  intro text opts s h
  unfold prepareCustomLog at h
  split at h
  · exact h1 _ _ _ h
  · unfold prepareCustomLogBody at h
    split at h
    · exact Option.noConfusion h
    · next global globalArgs _ =>
      split at h
      · exact Option.noConfusion h
      · next textContent changed _ =>
        injection h with h2
        exact ⟨global ++ notesPart changed textContent opts, h2.symm⟩

/-- Witness for C2: concrete returning calls of both engines end in the
reset sequence. -/
theorem c2_witness :
    (∃ u, ("\x1b[0m" : String) = u ++ ansiReset) ∧
    (∃ u, ("hi\x1b[0m" : String) = u ++ ansiReset) :=
  ⟨c2_output_ends_with_reset.1 "" none "\x1b[0m" (by decide),
   c2_output_ends_with_reset.2 "hi" none "hi\x1b[0m" (by decide)⟩

/-- Claim C7.  The inline parser's output depends only on the non-empty
segments of the separator split (empty segments are discarded); a segment
whose command key is not `c`, `s` or `i` leaves the parser state unchanged
without error (free-standing literal text is silently dropped); and on the
documented example the payloads of the recognized commands are kept in order
while the literal segment between them is dropped. -/
theorem c7_segment_processing :
    (∀ (t1 t2 : String) (seps : Option Separators),
      segsOf t1 seps = segsOf t2 seps → parseString t1 seps = parseString t2 seps) ∧
    (∀ (cSep pSep : String) (st : PSState) (seg : String),
      keyOfSeg cSep pSep seg ≠ some 'i' → keyOfSeg cSep pSep seg ≠ some 's' →
      keyOfSeg cSep pSep seg ≠ some 'c' → stepSeg cSep pSep st seg = some st) ∧
    parseString "||c.red.A||" none = parseString "|c.red.A|" none ∧
    parseString "|c.red.A| B |s.bold.C|" none =
      some "\x1b[31mA\x1b[1;31mC\x1b[22;31m\x1b[0m" ∧
    jsContains "\x1b[31mA\x1b[1;31mC\x1b[22;31m\x1b[0m" "B" = false := by
  refine ⟨?_, ?_, by decide, by decide, by decide⟩
  · intro t1 t2 seps h
    unfold parseString
    rw [h]
  · intro cSep pSep st seg hi hs hc
    simp only [stepSeg, if_neg hi, if_neg hs, if_neg hc]

/-- Witness for C7: the doubled-separator input processes identically to the
plain one, and the literal middle segment of the example is a no-op for the
segment processor. -/
theorem c7_witness :
    parseString "||c.red.A||" none = parseString "|c.red.A|" none ∧
    stepSeg "|" "." { str := "", lastColor := none } " B " =
      some { str := "", lastColor := none } :=
  ⟨c7_segment_processing.1 "||c.red.A||" "|c.red.A|" none (by decide),
   c7_segment_processing.2.1 "|" "." { str := "", lastColor := none } " B "
     (by decide) (by decide) (by decide)⟩

/-- Claim C6.  String RGB extraction takes the maximal digit runs in order
(so any non-digit delimiters are equivalent), keeps at most the first three
runs, and reduces each modulo 256 (wrap, not clamp); `getColor` then emits
the indexed form for one component, the degenerate four-argument form with a
zero third channel for two, and the full 24-bit form for three, always as a
semicolon-joined parameter list. -/
theorem c6_rgb_extraction_and_forms :
    parseRGBStr "256,0,0" = some [some 0, some 0, some 0] ∧
    (∀ s t : String, strEmpty s = false → strEmpty t = false →
      digitRuns s.data = digitRuns t.data → parseRGBStr s = parseRGBStr t) ∧
    parseRGBStr "255,0,0" = parseRGBStr "255-0-0" ∧
    parseRGBStr "255-0-0" = parseRGBStr "255.0.0" ∧
    parseRGBStr "255.0.0" = parseRGBStr "255/0-0" ∧
    parseRGBStr "1,2,3,4" = parseRGBStr "1,2,3" ∧
    (∀ (c : Nat) (bg contrast : Bool),
      getColor "" (some { bg := bg, contrast := contrast, rgb := some [some c] }) =
        escSeq (joinSep ";" [natRepr (if bg then 48 else 38), "5", natRepr (c % 256)])) ∧
    (∀ (c1 c2 : Nat) (bg contrast : Bool),
      getColor "" (some { bg := bg, contrast := contrast, rgb := some [some c1, some c2] }) =
        escSeq (joinSep ";"
          [natRepr (if bg then 48 else 38), "2", natRepr (c1 % 256), natRepr (c2 % 256), "0"])) ∧
    (∀ (r g b : Nat) (bg contrast : Bool),
      getColor "" (some { bg := bg, contrast := contrast, rgb := some [some r, some g, some b] }) =
        escSeq (joinSep ";"
          [natRepr (if bg then 48 else 38), "2", natRepr (r % 256), natRepr (g % 256),
           natRepr (b % 256)])) := by
  refine ⟨by decide, ?_, by decide, by decide, by decide, by decide, ?_, ?_, ?_⟩
  · intro s t hs ht h
    simp only [parseRGBStr, hs, ht, h]
  · intro c bg contrast
    cases bg <;> cases contrast <;> rfl
  · intro c1 c2 bg contrast
    cases bg <;> cases contrast <;> rfl
  · intro r g b bg contrast
    cases bg <;> cases contrast <;> rfl

/-- Witness for C6: delimiter invariance applied at a concrete pair of
inputs with identical digit runs, and the one-component indexed form at a
wrapping component. -/
theorem c6_witness :
    parseRGBStr "255,0,0" = parseRGBStr "255 0 0" ∧
    getColor "" (some { bg := false, contrast := false, rgb := some [some 300] }) =
      escSeq (joinSep ";" [natRepr 38, "5", natRepr (300 % 256)]) :=
  ⟨c6_rgb_extraction_and_forms.2.1 "255,0,0" "255 0 0" (by decide) (by decide) (by decide),
   c6_rgb_extraction_and_forms.2.2.2.2.2.2.1 300 false false⟩

/-- On any call without an RGB array, `getColor` only consumes the input
text through its lowercased form and its length, so the named lookup is
case-insensitive. -/
theorem getColor_lower_invariant (s t : String) (o : Option JsColorOpts)
    (hl : jsToLower s = jsToLower t)
    (hr : (o.map (fun x => x.rgb)).getD none = none) :
    getColor s o = getColor t o := by
  have hlen : s.length = t.length := by
    have h1 : (jsToLower s).length = s.length := by
      simp only [jsToLower, String.length, List.length_map]
    have h2 : (jsToLower t).length = t.length := by
      simp only [jsToLower, String.length, List.length_map]
    rw [← h1, ← h2, hl]
  simp only [getColor, hr, hl, hlen]

/-- Claim C8.  Named-color resolution depends only on the lowercased token
(exact case-insensitive match first); when the exact match fails it falls
back to the first palette name, in declared iteration order, contained in
the lowercased input (shown on concrete inputs containing two palette
names); when neither applies the result is empty; and in particular the
resolution of the lowercase and uppercase spellings of a palette name
coincide. -/
theorem c8_named_lookup :
    (∀ (s t : String) (o : Option JsColorOpts),
      jsToLower s = jsToLower t → (o.map (fun x => x.rgb)).getD none = none →
      getColor s o = getColor t o) ∧
    resolveColor "red" = resolveColor "RED" ∧
    resolveColor "red" = some "\x1b[31m" ∧
    resolveColor "cyanred" = some "\x1b[31m" ∧
    resolveColor "redblack" = some "\x1b[30m" ∧
    resolveColor "zzz" = some "" := by
  exact ⟨getColor_lower_invariant, by decide, by decide, by decide, by decide, by decide⟩

/-- Witness for C8: the case-insensitivity of the named lookup applied at
the concrete pair of spellings of the claim. -/
theorem c8_witness : getColor "RED" none = getColor "red" none :=
  c8_named_lookup.1 "RED" "red" none (by decide) (by decide)

/-- Each digit character's code point lies between 48 and 57. -/
theorem digitChar_bounds (n : Nat) :
    48 ≤ (digitChar n).toNat ∧ (digitChar n).toNat ≤ 57 := by
  unfold digitChar
  split <;> decide

/-- Every character of a printed natural number is a decimal digit. -/
theorem mem_natReprGo_digit :
    ∀ (fuel n : Nat) (c : Char), c ∈ natReprGo fuel n →
      48 ≤ c.toNat ∧ c.toNat ≤ 57 := by
  intro fuel
  induction fuel with
  | zero =>
    intro n c h
    simp [natReprGo] at h
  | succ f ih =>
    intro n c h
    simp only [natReprGo] at h
    split at h
    · simp only [List.mem_singleton] at h
      subst h
      exact digitChar_bounds n
    · rcases List.mem_append.mp h with h1 | h2
      · exact ih _ _ h1
      · simp only [List.mem_singleton] at h2
        subst h2
        exact digitChar_bounds _

/-- A printed natural number is non-empty and starts with a digit. -/
theorem natReprGo_head (f m : Nat) :
    ∃ c cs, natReprGo (f + 1) m = c :: cs ∧ 48 ≤ c.toNat ∧ c.toNat ≤ 57 := by
  simp only [natReprGo]
  split
  · exact ⟨digitChar m, [], rfl, digitChar_bounds m⟩
  · cases hgo : natReprGo f (m / 10) with
    | nil => exact ⟨digitChar (m % 10), [], by simp [hgo], digitChar_bounds _⟩
    | cons c cs =>
      refine ⟨c, cs ++ [digitChar (m % 10)], by simp [hgo], ?_⟩
      exact mem_natReprGo_digit f (m / 10) c (by rw [hgo]; exact List.mem_cons_self c cs)

/-- Lowercasing fixes any character whose code point is at most 57 (digits,
punctuation). -/
theorem toLower_fix_of_le (c : Char) (h : c.toNat ≤ 57) : Char.toLower c = c := by
  simp only [Char.toLower]
  rw [if_neg]
  omega

/-- The lowercased JS string of an integer starts with a minus sign or a
digit. -/
theorem lower_intRepr_head (n : Int) :
    ∃ c cs, (jsToLower (intRepr n)).data = c :: cs ∧
      (c.toNat = 45 ∨ (48 ≤ c.toNat ∧ c.toNat ≤ 57)) := by
  unfold intRepr
  split
  · refine ⟨'-', (natReprGo (n.natAbs + 1) n.natAbs).map Char.toLower, ?_, Or.inl (by decide)⟩
    rfl
  · obtain ⟨c, cs, hgo, hb1, hb2⟩ := natReprGo_head n.toNat n.toNat
    refine ⟨c, cs.map Char.toLower, ?_, Or.inr ⟨hb1, hb2⟩⟩
    have hdata : (jsToLower (natRepr n.toNat)).data =
        (natReprGo (n.toNat + 1) n.toNat).map Char.toLower := rfl
    rw [hdata, hgo]
    simp [toLower_fix_of_le c hb2]

/-- A printed integer never lowercases to a string whose first character is
a letter at code point 98 or above (all the index alias names are such). -/
theorem contains_lower_intRepr_false (n : Int) (l : List String)
    (hl : ∀ a ∈ l, 98 ≤ (a.data.headD ' ').toNat) :
    l.contains (jsToLower (intRepr n)) = false := by
  induction l with
  | nil => rfl
  | cons b bs ih =>
    show List.elem _ (b :: bs) = false
    rw [List.elem_cons]
    have hb : (jsToLower (intRepr n) == b) = false := by
      rw [beq_eq_false_iff_ne]
      intro he
      obtain ⟨c, cs, hdata, hc⟩ := lower_intRepr_head n
      have h98 := hl b (List.mem_cons_self b bs)
      rw [← he, hdata] at h98
      simp only [List.headD_cons] at h98
      rcases hc with h | h
      · omega
      · omega
    rw [hb]
    exact ih (fun a ha => hl a (List.mem_cons_of_mem b ha))

/-- Claim C10.  In `halving`, the alias strings of the superscript family
select the down code 73 together with the down-family words, the subscript
aliases select the up code 74 together with the up-family words (the English
meaning of the super/sub alias names is inverted), while numeric arguments
follow their sign: positive numbers produce the up code 74, negative the
down code 73, and zero or an unrecognized word returns the text unchanged. -/
theorem c10_index_direction :
    (∀ t : String, halving t (.str "superscript") [] = "\x1b[73m" ++ t ++ "\x1b[75m") ∧
    (∀ t : String, halving t (.str "super") [] = "\x1b[73m" ++ t ++ "\x1b[75m") ∧
    (∀ t : String, halving t (.str "sup") [] = "\x1b[73m" ++ t ++ "\x1b[75m") ∧
    (∀ t : String, halving t (.str "down") [] = "\x1b[73m" ++ t ++ "\x1b[75m") ∧
    (∀ t : String, halving t (.str "subscript") [] = "\x1b[74m" ++ t ++ "\x1b[75m") ∧
    (∀ t : String, halving t (.str "sub") [] = "\x1b[74m" ++ t ++ "\x1b[75m") ∧
    (∀ t : String, halving t (.str "up") [] = "\x1b[74m" ++ t ++ "\x1b[75m") ∧
    (∀ (t : String) (n : Int), 0 < n →
      halving t (.num n) [] = "\x1b[74m" ++ t ++ "\x1b[75m") ∧
    (∀ (t : String) (n : Int), n < 0 →
      halving t (.num n) [] = "\x1b[73m" ++ t ++ "\x1b[75m") ∧
    (∀ t : String, halving t (.num 0) [] = t) ∧
    (∀ t : String, halving t (.str "sideways") [] = t) := by
  refine ⟨fun t => rfl, fun t => rfl, fun t => rfl, fun t => rfl, fun t => rfl,
    fun t => rfl, fun t => rfl, ?_, ?_, fun t => rfl, fun t => rfl⟩
  · intro t n hn
    have hf : regFalsy (Reg.num n) = false := by
      simp only [regFalsy, decide_eq_false_iff_not]
      omega
    have hdown : downAliases.contains (jsToLower (intRepr n)) = false :=
      contains_lower_intRepr_false n downAliases (by decide)
    have hup : upAliases.contains (jsToLower (intRepr n)) = false :=
      contains_lower_intRepr_false n upAliases (by decide)
    have h1 : decide (n < 0) = false := by
      simp only [decide_eq_false_iff_not]
      omega
    have h2 : decide (0 < n) = true := by
      simp only [decide_eq_true_eq]
      omega
    simp only [halving, hf, regToStr, regToNum, hdown, hup, h1, h2,
      Bool.false_or, Bool.or_false, if_false, Bool.false_eq_true, if_true]
    rfl
  · intro t n hn
    have hf : regFalsy (Reg.num n) = false := by
      simp only [regFalsy, decide_eq_false_iff_not]
      omega
    have hdown : downAliases.contains (jsToLower (intRepr n)) = false :=
      contains_lower_intRepr_false n downAliases (by decide)
    have hup : upAliases.contains (jsToLower (intRepr n)) = false :=
      contains_lower_intRepr_false n upAliases (by decide)
    have h1 : decide (n < 0) = true := by
      simp only [decide_eq_true_eq]
      omega
    simp only [halving, hf, regToStr, regToNum, hdown, hup, h1,
      Bool.false_or, Bool.or_false, if_false, Bool.false_eq_true, if_true]
    rfl

/-- Witness for C10: the sign rule applied at the concrete numbers 2 and
minus 2. -/
theorem c10_witness :
    halving "x" (.num 2) [] = "\x1b[74m" ++ "x" ++ "\x1b[75m" ∧
    halving "x" (.num (-2)) [] = "\x1b[73m" ++ "x" ++ "\x1b[75m" :=
  ⟨c10_index_direction.2.2.2.2.2.2.2.1 "x" 2 (by decide),
   c10_index_direction.2.2.2.2.2.2.2.2.1 "x" (-2) (by decide)⟩
